/-
Verification of the HQM momentum scanner (src/momentum.py, src/database.py,
src/app.py) against its natural-language specification.

Numeric model: Python floats are modelled by exact rationals (ℚ); `NaN` /
missing values are modelled by `Option ℚ` with `none` for NaN.  Python's
`round` / pandas `.round` (round half to even) is modelled by `roundTo`.
-/
import Mathlib

namespace HQM

/-- A row of the `stocks` table as loaded by `run_hqm_scan_from_db`
(`SELECT ticker, exchange, market_cap, price, return_1m, return_3m,
return_6m, return_1y FROM stocks`).  Nullable REAL columns are `Option ℚ`. -/
structure StockRow where
  ticker : String
  exchange : String
  market_cap : Option ℚ
  price : ℚ
  return_1m : Option ℚ
  return_3m : Option ℚ
  return_6m : Option ℚ
  return_1y : Option ℚ
deriving DecidableEq, Repr

/-- Model of `scipy.stats.percentileofscore(pop, x, kind='mean')`:
the mean of the strict rank fraction `count(y < x)/n` and the weak rank
fraction `count(y ≤ x)/n`, times 100. -/
def percentileofscore (pop : List ℚ) (x : ℚ) : ℚ :=
  100 * (((pop.countP fun y => decide (y < x)) : ℚ)
       + ((pop.countP fun y => decide (y ≤ x)) : ℚ)) / (2 * pop.length)

/-- One percentile column: `df[pct_col] = df[return_col].apply(lambda x:
percentileofscore(valid_returns, x, kind='mean') if pd.notna(x) else np.nan)`
where `valid_returns = df[return_col].dropna()`. -/
def pctColumn (df : List StockRow) (sel : StockRow → Option ℚ) (r : StockRow) :
    Option ℚ :=
  (sel r).map (percentileofscore (df.filterMap sel))

/-- pandas `mean(axis=1)` over a row of possibly-NaN cells: skips NaN,
NaN when every cell is NaN. -/
def meanSkipNa (cells : List (Option ℚ)) : Option ℚ :=
  match cells.filterMap id with
  | [] => none
  | v => some (v.sum / v.length)

/-- pandas `min(axis=1)` over a row of possibly-NaN cells: skips NaN,
NaN when every cell is NaN. -/
def minSkipNa (cells : List (Option ℚ)) : Option ℚ :=
  match cells.filterMap id with
  | [] => none
  | h :: t => some (t.foldl min h)

/-- A stock row with its four percentile columns, `HQM_Score` and
`Min_Percentile` attached (lines 364-373 of `database.py`). -/
structure ScoredRow where
  row : StockRow
  pct_1m : Option ℚ
  pct_3m : Option ℚ
  pct_6m : Option ℚ
  pct_1y : Option ℚ
  hqm_score : Option ℚ
  min_percentile : Option ℚ
deriving DecidableEq, Repr

/-- Score one row against the whole collection: the four percentile columns,
`HQM_Score = df[percentile_columns].mean(axis=1)` and
`Min_Percentile = df[percentile_columns].min(axis=1)`. -/
def scoreRow (df : List StockRow) (r : StockRow) : ScoredRow :=
  let p1 := pctColumn df StockRow.return_1m r
  let p2 := pctColumn df StockRow.return_3m r
  let p3 := pctColumn df StockRow.return_6m r
  let p4 := pctColumn df StockRow.return_1y r
  { row := r, pct_1m := p1, pct_3m := p2, pct_6m := p3, pct_1y := p4,
    hqm_score := meanSkipNa [p1, p2, p3, p4],
    min_percentile := minSkipNa [p1, p2, p3, p4] }

/-- Percentile and composite scoring applied to the whole collection. -/
def calculateScores (df : List StockRow) : List ScoredRow :=
  df.map (scoreRow df)

/-- The quality-filter predicate `df['Min_Percentile'] >= threshold`.
In pandas a NaN comparison is `False`, so a row whose `Min_Percentile`
is NaN is dropped. -/
def qualityKeep (threshold : ℚ) (s : ScoredRow) : Bool :=
  match s.min_percentile with
  | none => false
  | some m => decide (threshold ≤ m)

/-- Model of `df = df[df['Min_Percentile'] >= threshold]` (line 377 of `database.py`
with threshold 25; parameter `min_percentile` in `momentum.py`). -/
def qualityFilter (threshold : ℚ) (l : List ScoredRow) : List ScoredRow :=
  l.filter (qualityKeep threshold)

/-- Sort key for `sort_values('HQM_Score', ascending=False)`.  Every row
reaching the sort has a defined `HQM_Score` (the quality filter already
removed the rows whose scores are all NaN), so the `none` default is inert. -/
def hqmKey (s : ScoredRow) : ℚ :=
  s.hqm_score.getD 0

/-- The relation "descending by HQM score" used by the sort. -/
def hqmGE (a b : ScoredRow) : Prop :=
  hqmKey b ≤ hqmKey a

instance : DecidableRel hqmGE :=
  fun a b => inferInstanceAs (Decidable (hqmKey b ≤ hqmKey a))

instance : IsTotal ScoredRow hqmGE :=
  ⟨fun a b => le_total (hqmKey b) (hqmKey a)⟩

instance : IsTrans ScoredRow hqmGE :=
  ⟨fun _ _ _ h1 h2 => le_trans h2 h1⟩

/-- Model of `df.sort_values('HQM_Score', ascending=False)`.  pandas' default sort
kind (quicksort) promises only *some* permutation ordered by the key; the
functional pipeline fixes one admissible implementation.  Tie-break
properties are stated against the relation `IsHqmDescSortOf` below, which
is exactly what the source pins down. -/
def sortByHqmDesc (l : List ScoredRow) : List ScoredRow :=
  List.insertionSort hqmGE l

/-- The semantics the source's `sort_values('HQM_Score', ascending=False)`
guarantees for its output: a permutation of the input that is ordered
non-increasingly by `HQM_Score` (the default quicksort kind documents no
stability). -/
def IsHqmDescSortOf (l out : List ScoredRow) : Prop :=
  l.Perm out ∧ out.Pairwise hqmGE

/-- Model of `candidates_multiplier = 3 if max_sma10_distance is not None else 1.5`
followed by `candidates_count = min(int(num_positions * candidates_multiplier),
len(df))`; Python `int()` truncates, which is `⌊·⌋` on non-negatives. -/
def candidatesCount (num_positions : ℕ) (trendEnabled : Bool)
    (survivorCount : ℕ) : ℕ :=
  let mult : ℚ := if trendEnabled then 3 else 3 / 2
  min (Int.toNat ⌊(num_positions : ℚ) * mult⌋) survivorCount

/-- Model of `df_candidates['SMA10_Distance'] = df_candidates['Ticker'].map(lambda t:
sma10_distances.get(t, None))`. -/
def addSmaDistance (sma : String → Option ℚ) (l : List ScoredRow) :
    List (ScoredRow × Option ℚ) :=
  l.map fun s => (s, sma s.row.ticker)

/-- The SMA10-filter row predicate
`(df_candidates['SMA10_Distance'].isna()) |
 (df_candidates['SMA10_Distance'] <= max_sma10_distance)`. -/
def smaKeep (max_sma10_distance : ℚ) (p : ScoredRow × Option ℚ) : Bool :=
  match p.2 with
  | none => true
  | some d => decide (d ≤ max_sma10_distance)

/-- Model of `if max_sma10_distance is not None: df_candidates = df_candidates[...]`. -/
def applySmaFilter (max_sma10_distance : Option ℚ)
    (l : List (ScoredRow × Option ℚ)) : List (ScoredRow × Option ℚ) :=
  match max_sma10_distance with
  | none => l
  | some m => l.filter (smaKeep m)

/-- The final selection of `run_hqm_scan_from_db`: score, quality-filter,
sort descending, truncate to the candidate pool, attach SMA10 distances,
optionally filter by them, and `head(num_positions)`. -/
def finalSelection (df : List StockRow) (num_positions : ℕ)
    (max_sma10_distance : Option ℚ) (sma : String → Option ℚ) :
    List (ScoredRow × Option ℚ) :=
  let survivors := qualityFilter 25 (calculateScores df)
  let sorted := sortByHqmDesc survivors
  let cands := sorted.take
    (candidatesCount num_positions max_sma10_distance.isSome sorted.length)
  (applySmaFilter max_sma10_distance (addSmaDistance sma cands)).take
    num_positions

/-- One row after position sizing (lines 412-419 of `database.py`). -/
structure PositionRow where
  scored : ScoredRow
  sma10_distance : Option ℚ
  allocation : ℚ
  weight : ℚ
  shares : ℤ
  value : ℚ
deriving DecidableEq, Repr

/-- Position sizing over the final selection:
`allocation_per_stock = portfolio_size / len(df)`, `Weight = 100/len(df)`,
`Shares = floor(allocation_per_stock / price) if price > 0 else 0`,
`Value = Shares * Price`. -/
def sizePositions (portfolio_size : ℚ) (sel : List (ScoredRow × Option ℚ)) :
    List PositionRow :=
  let n : ℚ := sel.length
  let allocation_per_stock := portfolio_size / n
  sel.map fun p =>
    let price := p.1.row.price
    let shares : ℤ :=
      if 0 < price then ⌊allocation_per_stock / price⌋ else 0
    { scored := p.1, sma10_distance := p.2,
      allocation := allocation_per_stock, weight := 100 / n,
      shares := shares, value := shares * price }

/-- Round half to even (Python / numpy `round` on an exact value). -/
def roundHalfEven (x : ℚ) : ℤ :=
  let n := ⌊x⌋
  let r := x - n
  if r < 1 / 2 then n
  else if 1 / 2 < r then n + 1
  else if 2 ∣ n then n else n + 1

/-- Model of `round(x, d)`: round half to even at `d` decimal places. -/
def roundTo (d : ℕ) (x : ℚ) : ℚ :=
  (roundHalfEven (x * 10 ^ d) : ℚ) / 10 ^ d

/-- A row of the scan's `results` list after the display rounding of lines
436-441 of `database.py` (returns to 4 dp, percentiles and `HQM_Score` to
1 dp, `Weight` to 1 dp, `Value` to 2 dp). -/
structure ResultRow where
  ticker : String
  price : ℚ
  return_1m : Option ℚ
  return_3m : Option ℚ
  return_6m : Option ℚ
  return_1y : Option ℚ
  pct_1m : Option ℚ
  pct_3m : Option ℚ
  pct_6m : Option ℚ
  pct_1y : Option ℚ
  hqm_score : Option ℚ
  sma10_distance : Option ℚ
  shares : ℤ
  value : ℚ
  weight : ℚ
deriving DecidableEq, Repr

/-- The rounding pass of `run_hqm_scan_from_db` (lines 436-441). -/
def toResultRow (p : PositionRow) : ResultRow :=
  { ticker := p.scored.row.ticker, price := p.scored.row.price,
    return_1m := p.scored.row.return_1m.map (roundTo 4),
    return_3m := p.scored.row.return_3m.map (roundTo 4),
    return_6m := p.scored.row.return_6m.map (roundTo 4),
    return_1y := p.scored.row.return_1y.map (roundTo 4),
    pct_1m := p.scored.pct_1m.map (roundTo 1),
    pct_3m := p.scored.pct_3m.map (roundTo 1),
    pct_6m := p.scored.pct_6m.map (roundTo 1),
    pct_1y := p.scored.pct_1y.map (roundTo 1),
    hqm_score := p.scored.hqm_score.map (roundTo 1),
    sma10_distance := p.sma10_distance,
    shares := p.shares, value := roundTo 2 p.value,
    weight := roundTo 1 p.weight }

/-- The summary dict assembled at the end of `run_hqm_scan_from_db`. -/
structure ScanSummary where
  after_quality_filter : ℕ
  filtered_out : ℕ
  filtered_by_sma10 : ℕ
  selected : ℕ
  total_invested : ℚ
  cash_remaining : ℚ
  portfolio_size : ℚ
  allocation_per_stock : ℚ
deriving DecidableEq, Repr

/-- Outcome of a scan.  `errorDict` is the `{'success': False, 'error': msg}`
return; `zeroDivisionError` is the unhandled Python `ZeroDivisionError`
raised by `allocation_per_stock = portfolio_size / len(df)` when the final
selection is empty. -/
inductive ScanOutcome where
  | errorDict (msg : String)
  | zeroDivisionError
  | ok (results : List ResultRow) (summary : ScanSummary)
deriving DecidableEq, Repr

/-- Model of `run_hqm_scan_from_db(portfolio_size, num_positions,
max_sma10_distance)` over a database snapshot `df` and the SMA10 lookup
`sma` (the contents of `sma10_distances.get`). -/
def run_hqm_scan_from_db (df : List StockRow) (portfolio_size : ℚ)
    (num_positions : ℕ) (max_sma10_distance : Option ℚ)
    (sma : String → Option ℚ) : ScanOutcome :=
  if df.length = 0 then
    .errorDict "No data in database. Please refresh data first."
  else
    let survivors := qualityFilter 25 (calculateScores df)
    let sorted := sortByHqmDesc survivors
    let candsCount :=
      candidatesCount num_positions max_sma10_distance.isSome sorted.length
    let cands := (sortByHqmDesc survivors).take candsCount
    let withDist := addSmaDistance sma cands
    let afterSma := applySmaFilter max_sma10_distance withDist
    let sel := afterSma.take num_positions
    if sel.length = 0 then
      .zeroDivisionError
    else
      let positions := sizePositions portfolio_size sel
      let total_invested := (positions.map PositionRow.value).sum
      let cash_remaining := portfolio_size - total_invested
      .ok (positions.map toResultRow)
        { after_quality_filter := survivors.length,
          filtered_out := df.length - survivors.length,
          filtered_by_sma10 := withDist.length - afterSma.length,
          selected := sel.length,
          total_invested := roundTo 2 total_invested,
          cash_remaining := roundTo 2 cash_remaining,
          portfolio_size := portfolio_size,
          allocation_per_stock := roundTo 2 (portfolio_size / sel.length) }

/-- Model of the `range(0, len(tickers), batch_size)` slicing: split a list into chunks
of `n` elements (last chunk shorter). -/
def chunksOf (n : ℕ) (l : List α) : List (List α) :=
  match l with
  | [] => []
  | x :: xs => (x :: xs.take (n - 1)) :: chunksOf n (xs.drop (n - 1))
termination_by l.length
decreasing_by simp only [List.length_drop, List.length_cons]; omega

/-- Model of `closes.rolling(window=10).mean().iloc[-1]` over a raw, possibly-NaN
series: NaN unless the series has at least 10 rows and the last 10 rows are
all non-NaN, in which case it is their mean. -/
def rolling10MeanLast (rows : List (Option ℚ)) : Option ℚ :=
  let last10 := rows.drop (rows.length - 10)
  if 10 ≤ rows.length ∧ last10.all Option.isSome then
    some ((last10.filterMap id).sum / 10)
  else none

/-- The single-ticker branch of `get_sma10_distance` (lines 299-307 of
`database.py`): the closes are *not* `dropna`-ed; requires `len(data) >= 10`
raw rows, computes the rolling mean over the raw series (NaN whenever a NaN
sits among the last 10 rows), takes the raw last row as the current price,
and records the rounded distance only when the SMA10 is strictly positive. -/
def singleTickerDistance (rows : List (Option ℚ)) : Option ℚ :=
  if 10 ≤ rows.length then
    match rolling10MeanLast rows, rows.getLast? with
    | some sma10, some (some current) =>
      if 0 < sma10 then some (roundTo 2 ((current - sma10) / sma10 * 100))
      else none
    | _, _ => none
  else none

/-- Model of `data['Close'][ticker].dropna()`: the valid (non-NaN) closes. -/
def validCloses (rows : List (Option ℚ)) : List ℚ :=
  rows.filterMap id

/-- Model of `closes.rolling(window=10).mean().iloc[-1]` over an all-valid series of
length at least 10: the mean of the last 10 entries. -/
def sma10Of (closes : List ℚ) : ℚ :=
  (closes.drop (closes.length - 10)).sum / 10

/-- The multi-ticker branch of `get_sma10_distance` (lines 310-319):
`closes = data['Close'][ticker].dropna()`; requires at least 10 valid
closes, takes the mean of the last 10 valid closes and the last valid close,
and records the rounded distance only when the SMA10 is strictly positive. -/
def multiTickerDistance (rows : List (Option ℚ)) : Option ℚ :=
  let closes := validCloses rows
  if 10 ≤ closes.length then
    let sma10 := sma10Of closes
    match closes.getLast? with
    | some current =>
      if 0 < sma10 then some (roundTo 2 ((current - sma10) / sma10 * 100))
      else none
    | none => none
  else none

/-- One batch of `get_sma10_distance`: `len(batch) == 1` takes the
single-ticker branch, any other size the MultiIndex branch.  `hist t = none`
models the ticker's `Close` column being absent from the download. -/
def processBatch (hist : String → Option (List (Option ℚ)))
    (batch : List String) : List (String × ℚ) :=
  match batch with
  | [t] =>
    match hist t with
    | some rows =>
      match singleTickerDistance rows with
      | some d => [(t, d)]
      | none => []
    | none => []
  | _ =>
    batch.filterMap fun t =>
      match hist t with
      | some rows => (multiTickerDistance rows).map fun d => (t, d)
      | none => none

/-- Model of `get_sma10_distance(tickers)`: batches of 50 against the price-history
response `hist`, accumulating a ticker → distance mapping (assoc list). -/
def get_sma10_distance (tickers : List String)
    (hist : String → Option (List (Option ℚ))) : List (String × ℚ) :=
  (chunksOf 50 tickers).foldl
    (fun results batch => results ++ processBatch hist batch) []

/-- Response of the `/api/scan` route (`start_scan` in `app.py`).  The
busy-state short-circuit is concurrency plumbing outside the model. -/
inductive ApiResponse where
  | noDataError
  | validationError (msg : String)
  | scanStarted (outcome : ScanOutcome)
deriving DecidableEq, Repr

/-- Model of `start_scan` in `app.py`: the no-data check, then the two parameter
validations, then the scan itself (run in a worker thread). -/
def start_scan (df : List StockRow) (portfolio_size : ℚ) (num_positions : ℤ)
    (max_sma10_distance : Option ℚ) (sma : String → Option ℚ) : ApiResponse :=
  if df.length = 0 then .noDataError
  else if portfolio_size < 1000 then
    .validationError "Portfolio size must be at least $1,000"
  else if num_positions < 1 ∨ 50 < num_positions then
    .validationError "Number of positions must be between 1 and 50"
  else
    .scanStarted (run_hqm_scan_from_db df portfolio_size num_positions.toNat
      max_sma10_distance sma)

/-- A row of the standalone pipeline's output dataframe
(`prepare_output_dataframe` in `momentum.py`). -/
structure OutputRow where
  ticker : String
  price : ℚ
  return_1m : Option ℚ
  return_3m : Option ℚ
  return_6m : Option ℚ
  return_1y : Option ℚ
  pct_1m : Option ℚ
  pct_3m : Option ℚ
  pct_6m : Option ℚ
  pct_1y : Option ℚ
  hqm_score : Option ℚ
  shares : ℤ
  value : ℚ
  weight : ℚ
deriving DecidableEq, Repr

/-- Model of `prepare_output_dataframe` of `momentum.py` (lines 323-351): rounds the
four return columns to 2 decimal places, the percentile columns and
`HQM_Score` to 1; `Shares_to_Buy`, `Actual_Value` and `Position_Weight`
pass through unrounded. -/
def prepare_output_dataframe (p : PositionRow) : OutputRow :=
  { ticker := p.scored.row.ticker, price := p.scored.row.price,
    return_1m := p.scored.row.return_1m.map (roundTo 2),
    return_3m := p.scored.row.return_3m.map (roundTo 2),
    return_6m := p.scored.row.return_6m.map (roundTo 2),
    return_1y := p.scored.row.return_1y.map (roundTo 2),
    pct_1m := p.scored.pct_1m.map (roundTo 1),
    pct_3m := p.scored.pct_3m.map (roundTo 1),
    pct_6m := p.scored.pct_6m.map (roundTo 1),
    pct_1y := p.scored.pct_1y.map (roundTo 1),
    hqm_score := p.scored.hqm_score.map (roundTo 1),
    shares := p.shares, value := p.value, weight := p.weight }

/-! ### Concrete data used in examples, witnesses and counterexamples -/

/-- A snapshot with the same return in all four timeframes. -/
def snapshotOf (t : String) (r : ℚ) : StockRow :=
  { ticker := t, exchange := "NYSE", market_cap := some 1, price := 10,
    return_1m := some r, return_3m := some r, return_6m := some r,
    return_1y := some r }

/-- The spec §8 example: five tickers D,B,C,A,E with one-month returns
0.02, 0.05, 0.08, 0.10, 0.15. -/
def exampleDf : List StockRow :=
  [snapshotOf "D" (2/100), snapshotOf "B" (5/100), snapshotOf "C" (8/100),
   snapshotOf "A" (10/100), snapshotOf "E" (15/100)]

/-- A snapshot with four independently chosen returns. -/
def snapshotOf4 (t : String) (a b c d : ℚ) : StockRow :=
  { ticker := t, exchange := "NYSE", market_cap := none, price := 10,
    return_1m := some a, return_3m := some b, return_6m := some c,
    return_1y := some d }

/-- Three snapshots, each the worst of the three in some timeframe: every
one has minimum percentile 100/6 < 25, so the quality filter removes all
of them. -/
def zeroSurvivorDf : List StockRow :=
  [snapshotOf4 "A" 0 1 1 0, snapshotOf4 "B" 1 0 2 1, snapshotOf4 "C" 2 2 0 2]

/-- A scored row with all four percentiles 50 (used to build ties). -/
def tieRow (t : String) : ScoredRow :=
  { row := snapshotOf t (1/10), pct_1m := some 50, pct_3m := some 50,
    pct_6m := some 50, pct_1y := some 50, hqm_score := some 50,
    min_percentile := some 50 }

/-- A 12-row close series: eleven valid closes (ten 2s then a 4) with one
NaN in between, sitting among the last 10 raw rows. -/
def exRowsA : List (Option ℚ) :=
  [some 2, some 2, some 2, some 2, some 2, some 2, some 2, some 2, some 2,
   some 2, none, some 4]

/-- A position row whose one-month return 1/16 = 0.0625 distinguishes
rounding to 4 decimal places (0.0625) from rounding to 2 (0.06). -/
def samplePosition : PositionRow :=
  { scored :=
      { row := snapshotOf "S9" (1/16), pct_1m := some 50, pct_3m := some 50,
        pct_6m := some 50, pct_1y := some 50, hqm_score := some 50,
        min_percentile := some 50 },
    sma10_distance := none, allocation := 1250, weight := 25/2,
    shares := 125, value := 1250 }

/-! ### Theorems -/

/-- C1: the percentile scorer implements the mean-rank definition: whenever
a ticker's return is defined it scores
`100 * (|{y < x}| + |{y ≤ x}|) / (2 * n)` over the population of defined
returns; when every return of the timeframe is defined the population size
equals the collection size; tied returns receive identical percentiles; and
the five tickers D,B,C,A,E with one-month returns 0.02, 0.05, 0.08, 0.10,
0.15 receive one-month percentiles exactly 10, 30, 50, 70, 90. -/
theorem C1_percentile_mean_rank :
    (∀ (df : List StockRow) (sel : StockRow → Option ℚ) (r : StockRow)
        (x : ℚ), sel r = some x →
        pctColumn df sel r =
          some (100 * ((((df.filterMap sel).countP fun y => decide (y < x)) : ℚ)
              + (((df.filterMap sel).countP fun y => decide (y ≤ x)) : ℚ))
            / (2 * ((df.filterMap sel).length : ℚ)))) ∧
    (∀ (df : List StockRow) (sel : StockRow → Option ℚ),
        (∀ s ∈ df, (sel s).isSome) →
        (df.filterMap sel).length = df.length) ∧
    (∀ (df : List StockRow) (sel : StockRow → Option ℚ) (r₁ r₂ : StockRow)
        (x : ℚ), sel r₁ = some x → sel r₂ = some x →
        pctColumn df sel r₁ = pctColumn df sel r₂) ∧
    exampleDf.map (fun r => pctColumn exampleDf StockRow.return_1m r) =
      [some 10, some 30, some 50, some 70, some 90] := by
  refine ⟨?_, ?_, ?_, ?_⟩
  · intro df sel r x h
    simp [pctColumn, h, percentileofscore]
  · intro df sel h
    induction df with
    | nil => simp
    | cons a l ih =>
      obtain ⟨y, hy⟩ := Option.isSome_iff_exists.mp (h a (by simp))
      simp [List.filterMap_cons, hy, ih fun s hs => h s (by simp [hs])]
  · intro df sel r₁ r₂ x h₁ h₂
    simp [pctColumn, h₁, h₂]
  · norm_num [exampleDf, snapshotOf, pctColumn, percentileofscore,
      List.countP_cons, List.filterMap_cons, decide_eq_true_eq]

/-- Witness for C1 at the concrete ticker D of the five-ticker example. -/
theorem C1_percentile_mean_rank_witness :
    (snapshotOf "D" (2/100)).return_1m = some (2/100) ∧
    pctColumn exampleDf StockRow.return_1m (snapshotOf "D" (2/100)) =
      some (100 * ((((exampleDf.filterMap StockRow.return_1m).countP
            fun y => decide (y < 2/100)) : ℚ)
          + (((exampleDf.filterMap StockRow.return_1m).countP
            fun y => decide (y ≤ 2/100)) : ℚ))
        / (2 * ((exampleDf.filterMap StockRow.return_1m).length : ℚ))) :=
  ⟨rfl, C1_percentile_mean_rank.1 exampleDf StockRow.return_1m
    (snapshotOf "D" (2/100)) (2/100) rfl⟩

/-- A mean-rank percentile is never negative. -/
theorem percentileofscore_nonneg (pop : List ℚ) (x : ℚ) :
    0 ≤ percentileofscore pop x := by
  unfold percentileofscore
  positivity

/-- A mean-rank percentile over a non-empty population is at most 100. -/
theorem percentileofscore_le_100 (pop : List ℚ) (x : ℚ) (h : pop ≠ []) :
    percentileofscore pop x ≤ 100 := by
  have hn : 0 < (pop.length : ℚ) := by
    exact_mod_cast List.length_pos.mpr h
  have h1 : ((pop.countP fun y => decide (y < x)) : ℚ) ≤ pop.length := by
    exact_mod_cast List.countP_le_length _
  have h2 : ((pop.countP fun y => decide (y ≤ x)) : ℚ) ≤ pop.length := by
    exact_mod_cast List.countP_le_length _
  unfold percentileofscore
  rw [div_le_iff₀ (by linarith)]
  linarith

/-- C7: for a snapshot whose four returns are defined, the composite scorer
yields the four defined percentiles with `hqm_score` their arithmetic mean,
`min_percentile` their minimum, and `0 ≤ min_percentile ≤ hqm_score ≤ 100`. -/
theorem C7_composite_score (df : List StockRow) (r : StockRow) (hr : r ∈ df)
    (x1 x2 x3 x4 : ℚ) (h1 : r.return_1m = some x1)
    (h2 : r.return_3m = some x2) (h3 : r.return_6m = some x3)
    (h4 : r.return_1y = some x4) :
    ∃ p1 p2 p3 p4 : ℚ,
      (scoreRow df r).pct_1m = some p1 ∧ (scoreRow df r).pct_3m = some p2 ∧
      (scoreRow df r).pct_6m = some p3 ∧ (scoreRow df r).pct_1y = some p4 ∧
      (scoreRow df r).hqm_score = some ((p1 + p2 + p3 + p4) / 4) ∧
      (scoreRow df r).min_percentile =
        some (min (min (min p1 p2) p3) p4) ∧
      0 ≤ min (min (min p1 p2) p3) p4 ∧
      min (min (min p1 p2) p3) p4 ≤ (p1 + p2 + p3 + p4) / 4 ∧
      (p1 + p2 + p3 + p4) / 4 ≤ 100 := by
  refine ⟨percentileofscore (df.filterMap StockRow.return_1m) x1,
    percentileofscore (df.filterMap StockRow.return_3m) x2,
    percentileofscore (df.filterMap StockRow.return_6m) x3,
    percentileofscore (df.filterMap StockRow.return_1y) x4,
    ?_, ?_, ?_, ?_, ?_, ?_, ?_, ?_, ?_⟩
  · simp [scoreRow, pctColumn, h1]
  · simp [scoreRow, pctColumn, h2]
  · simp [scoreRow, pctColumn, h3]
  · simp [scoreRow, pctColumn, h4]
  · simp [scoreRow, pctColumn, h1, h2, h3, h4, meanSkipNa]
    ring
  · simp [scoreRow, pctColumn, h1, h2, h3, h4, minSkipNa]
  all_goals {
    have e1 := percentileofscore_nonneg (df.filterMap StockRow.return_1m) x1
    have e2 := percentileofscore_nonneg (df.filterMap StockRow.return_3m) x2
    have e3 := percentileofscore_nonneg (df.filterMap StockRow.return_6m) x3
    have e4 := percentileofscore_nonneg (df.filterMap StockRow.return_1y) x4
    have u1 := percentileofscore_le_100 (df.filterMap StockRow.return_1m) x1
      (List.ne_nil_of_mem (List.mem_filterMap.mpr ⟨r, hr, h1⟩))
    have u2 := percentileofscore_le_100 (df.filterMap StockRow.return_3m) x2
      (List.ne_nil_of_mem (List.mem_filterMap.mpr ⟨r, hr, h2⟩))
    have u3 := percentileofscore_le_100 (df.filterMap StockRow.return_6m) x3
      (List.ne_nil_of_mem (List.mem_filterMap.mpr ⟨r, hr, h3⟩))
    have u4 := percentileofscore_le_100 (df.filterMap StockRow.return_1y) x4
      (List.ne_nil_of_mem (List.mem_filterMap.mpr ⟨r, hr, h4⟩))
    have m1 : min (min (min (percentileofscore
        (df.filterMap StockRow.return_1m) x1) (percentileofscore
        (df.filterMap StockRow.return_3m) x2)) (percentileofscore
        (df.filterMap StockRow.return_6m) x3)) (percentileofscore
        (df.filterMap StockRow.return_1y) x4) ≤ percentileofscore
        (df.filterMap StockRow.return_1m) x1 :=
      le_trans (min_le_left _ _) (le_trans (min_le_left _ _)
        (min_le_left _ _))
    have m2 := le_trans (min_le_left (min (min (percentileofscore
        (df.filterMap StockRow.return_1m) x1) (percentileofscore
        (df.filterMap StockRow.return_3m) x2)) (percentileofscore
        (df.filterMap StockRow.return_6m) x3)) (percentileofscore
        (df.filterMap StockRow.return_1y) x4))
      (le_trans (min_le_left _ _) (min_le_right _ _))
    have m3 := le_trans (min_le_left (min (min (percentileofscore
        (df.filterMap StockRow.return_1m) x1) (percentileofscore
        (df.filterMap StockRow.return_3m) x2)) (percentileofscore
        (df.filterMap StockRow.return_6m) x3)) (percentileofscore
        (df.filterMap StockRow.return_1y) x4)) (min_le_right _ _)
    have m4 := min_le_right (min (min (percentileofscore
        (df.filterMap StockRow.return_1m) x1) (percentileofscore
        (df.filterMap StockRow.return_3m) x2)) (percentileofscore
        (df.filterMap StockRow.return_6m) x3)) (percentileofscore
        (df.filterMap StockRow.return_1y) x4)
    first
    | exact le_min (le_min (le_min e1 e2) e3) e4
    | linarith }

/-- Witness for C7 at ticker D of the five-ticker example. -/
theorem C7_composite_score_witness :
    snapshotOf "D" (2/100) ∈ exampleDf ∧
    (∃ p1 p2 p3 p4 : ℚ,
      (scoreRow exampleDf (snapshotOf "D" (2/100))).pct_1m = some p1 ∧
      (scoreRow exampleDf (snapshotOf "D" (2/100))).pct_3m = some p2 ∧
      (scoreRow exampleDf (snapshotOf "D" (2/100))).pct_6m = some p3 ∧
      (scoreRow exampleDf (snapshotOf "D" (2/100))).pct_1y = some p4 ∧
      (scoreRow exampleDf (snapshotOf "D" (2/100))).hqm_score =
        some ((p1 + p2 + p3 + p4) / 4) ∧
      (scoreRow exampleDf (snapshotOf "D" (2/100))).min_percentile =
        some (min (min (min p1 p2) p3) p4) ∧
      0 ≤ min (min (min p1 p2) p3) p4 ∧
      min (min (min p1 p2) p3) p4 ≤ (p1 + p2 + p3 + p4) / 4 ∧
      (p1 + p2 + p3 + p4) / 4 ≤ 100) :=
  ⟨by simp [exampleDf],
   C7_composite_score exampleDf (snapshotOf "D" (2/100))
     (by simp [exampleDf]) (2/100) (2/100) (2/100) (2/100)
     rfl rfl rfl rfl⟩

/-- C8: the quality filter keeps exactly the candidates whose defined
`min_percentile` reaches the threshold (membership characterisation and the
complementary removal characterisation), and it is idempotent. -/
theorem C8_quality_filter (threshold : ℚ) (l : List ScoredRow) :
    qualityFilter threshold (qualityFilter threshold l) =
      qualityFilter threshold l ∧
    (∀ (s : ScoredRow) (m : ℚ), s.min_percentile = some m →
      (s ∈ qualityFilter threshold l ↔ s ∈ l ∧ threshold ≤ m)) ∧
    (∀ (s : ScoredRow) (m : ℚ), s.min_percentile = some m → s ∈ l →
      (s ∉ qualityFilter threshold l ↔ m < threshold)) := by
  refine ⟨?_, ?_, ?_⟩
  · simp [qualityFilter, List.filter_filter]
  · intro s m hm
    simp [qualityFilter, List.mem_filter, qualityKeep, hm]
  · intro s m hm hs
    simp [qualityFilter, List.mem_filter, qualityKeep, hm, hs, not_le]

/-- Witness for C8 at a singleton candidate list with threshold 25. -/
theorem C8_quality_filter_witness :
    (tieRow "W").min_percentile = some 50 ∧
    (tieRow "W" ∈ qualityFilter 25 [tieRow "W"] ↔
      tieRow "W" ∈ [tieRow "W"] ∧ (25:ℚ) ≤ 50) :=
  ⟨rfl, (C8_quality_filter 25 [tieRow "W"]).2.1 (tieRow "W") 50 rfl⟩

/-- C4: position sizing over a non-empty final selection of `N` candidates
and non-negative portfolio size `P` gives every candidate
`shares = ⌊(P/N)/price⌋` when its price is positive and `0` otherwise,
`value = shares * price` and `weight = 100/N`; the weights sum to exactly
100, `total_invested + cash_remaining = P` exactly, and the remaining cash
is non-negative. -/
theorem C4_position_sizing (sel : List (ScoredRow × Option ℚ))
    (portfolio_size : ℚ) (hne : sel ≠ []) (hP : 0 ≤ portfolio_size) :
    (∀ p ∈ sizePositions portfolio_size sel,
      p.shares = (if 0 < p.scored.row.price then
          ⌊portfolio_size / (sel.length : ℚ) / p.scored.row.price⌋ else 0) ∧
      p.value = (p.shares : ℚ) * p.scored.row.price ∧
      p.weight = 100 / (sel.length : ℚ)) ∧
    ((sizePositions portfolio_size sel).map PositionRow.weight).sum = 100 ∧
    ((sizePositions portfolio_size sel).map PositionRow.value).sum +
      (portfolio_size -
        ((sizePositions portfolio_size sel).map PositionRow.value).sum) =
      portfolio_size ∧
    0 ≤ portfolio_size -
        ((sizePositions portfolio_size sel).map PositionRow.value).sum := by
  have hNpos : 0 < (sel.length : ℚ) := by
    exact_mod_cast List.length_pos.mpr hne
  refine ⟨?_, ?_, by ring, ?_⟩
  · intro p hp
    simp only [sizePositions, List.mem_map] at hp
    obtain ⟨q, hq, rfl⟩ := hp
    exact ⟨rfl, rfl, rfl⟩
  · have hw : (sizePositions portfolio_size sel).map PositionRow.weight =
        List.replicate sel.length (100 / (sel.length : ℚ)) := by
      simp [sizePositions, List.map_map, Function.comp_def, List.map_const']
    rw [hw, List.sum_replicate, nsmul_eq_mul]
    field_simp
  · have key : ∀ v ∈ (sizePositions portfolio_size sel).map PositionRow.value,
        v ≤ portfolio_size / (sel.length : ℚ) := by
      intro v hv
      simp only [sizePositions, List.map_map, Function.comp_def,
        List.mem_map] at hv
      obtain ⟨q, hq, rfl⟩ := hv
      by_cases hpr : 0 < q.1.row.price
      · simp only [hpr, if_true]
        calc ((⌊portfolio_size / (sel.length : ℚ) / q.1.row.price⌋ : ℚ) *
              q.1.row.price)
            ≤ portfolio_size / (sel.length : ℚ) / q.1.row.price *
              q.1.row.price :=
              mul_le_mul_of_nonneg_right (Int.floor_le _) (le_of_lt hpr)
          _ = portfolio_size / (sel.length : ℚ) :=
              div_mul_cancel₀ _ (ne_of_gt hpr)
      · simp only [hpr, if_false, Int.cast_zero, zero_mul]
        exact div_nonneg hP (le_of_lt hNpos)
    have hsum := List.sum_le_card_nsmul _ _ key
    have hlen : (sizePositions portfolio_size sel).length = sel.length := by
      simp [sizePositions]
    rw [List.length_map, hlen, nsmul_eq_mul] at hsum
    have hcancel : (sel.length : ℚ) * (portfolio_size / (sel.length : ℚ)) =
        portfolio_size := by
      field_simp
    linarith [hsum, hcancel]

/-- Witness for C4 at a singleton selection and portfolio size 10000. -/
theorem C4_position_sizing_witness :
    ([(tieRow "W1", (none : Option ℚ))] ≠ []) ∧ (0:ℚ) ≤ 10000 ∧
    (((sizePositions 10000 [(tieRow "W1", none)]).map
        PositionRow.weight).sum = 100 ∧
      0 ≤ (10000:ℚ) -
        ((sizePositions 10000 [(tieRow "W1", none)]).map
          PositionRow.value).sum) :=
  ⟨by simp, by norm_num,
   ((C4_position_sizing [(tieRow "W1", none)] 10000 (by simp)
      (by norm_num)).2.1),
   ((C4_position_sizing [(tieRow "W1", none)] 10000 (by simp)
      (by norm_num)).2.2.2)⟩

/-- C5: with the trend filter enabled at threshold `maxd`, a candidate with
undefined `SMA10_Distance` is always kept; a candidate of the pool is kept
iff every defined distance of it is within the threshold, and removed iff
its distance is defined and exceeds the threshold; the final `head`
truncation keeps at most `num_positions` rows and preserves the
score-descending order of the pool. -/
theorem C5_trend_extension_filter (maxd : ℚ)
    (pool : List (ScoredRow × Option ℚ)) (n : ℕ) :
    (∀ p ∈ pool, p.2 = none → p ∈ applySmaFilter (some maxd) pool) ∧
    (∀ p : ScoredRow × Option ℚ,
      p ∈ applySmaFilter (some maxd) pool ↔
        p ∈ pool ∧ ∀ d : ℚ, p.2 = some d → d ≤ maxd) ∧
    (∀ p ∈ pool,
      (p ∉ applySmaFilter (some maxd) pool ↔
        ∃ d : ℚ, p.2 = some d ∧ maxd < d)) ∧
    (pool.Pairwise (fun a b => hqmGE a.1 b.1) →
      ((applySmaFilter (some maxd) pool).take n).Pairwise
        (fun a b => hqmGE a.1 b.1)) ∧
    ((applySmaFilter (some maxd) pool).take n).length ≤ n := by
  have hkeep : ∀ p : ScoredRow × Option ℚ,
      smaKeep maxd p = true ↔ ∀ d : ℚ, p.2 = some d → d ≤ maxd := by
    intro p
    cases h : p.2 with
    | none => simp [smaKeep, h]
    | some d => simp [smaKeep, h]
  refine ⟨?_, ?_, ?_, ?_, ?_⟩
  · intro p hp hnone
    simp [applySmaFilter, List.mem_filter, hp, smaKeep, hnone]
  · intro p
    simp only [applySmaFilter, List.mem_filter, hkeep]
  · intro p hp
    cases h : p.2 with
    | none => simp [applySmaFilter, List.mem_filter, hp, smaKeep, h]
    | some d =>
      simp [applySmaFilter, List.mem_filter, hp, smaKeep, h, not_le]
  · intro hsorted
    exact ((hsorted.filter (smaKeep maxd)).sublist
      (List.take_sublist _ _)).imp fun h => h
  · simp [List.length_take]

/-- Witness for C5's order-preservation at a two-row pool sorted by score. -/
theorem C5_trend_extension_filter_witness :
    ([(tieRow "U", (some 5 : Option ℚ)), (tieRow "V", none)].Pairwise
      (fun a b => hqmGE a.1 b.1)) ∧
    ((applySmaFilter (some 15)
        [(tieRow "U", (some 5 : Option ℚ)), (tieRow "V", none)]).take
      2).Pairwise (fun a b => hqmGE a.1 b.1) :=
  ⟨by simp [hqmGE, hqmKey, tieRow],
   (C5_trend_extension_filter 15
      [(tieRow "U", (some 5 : Option ℚ)), (tieRow "V", none)] 2).2.2.2.1
     (by simp [hqmGE, hqmKey, tieRow])⟩

/-- C3 (amended): the functional sort satisfies the sort relation the
source guarantees; for any admissible sorted output the candidate pool
(its `head(candidates_count)`) is still in non-increasing score order and
has exactly `min(⌊num_positions * multiplier⌋, survivor_count)` rows with
multiplier 3 when the trend filter is enabled and 1.5 otherwise. -/
theorem C3_candidate_selector (l out : List ScoredRow) (n : ℕ)
    (trendEnabled : Bool) (h : IsHqmDescSortOf l out) :
    IsHqmDescSortOf l (sortByHqmDesc l) ∧
    (out.take (candidatesCount n trendEnabled out.length)).Pairwise hqmGE ∧
    (out.take (candidatesCount n trendEnabled out.length)).length =
      min (Int.toNat ⌊(n : ℚ) * (if trendEnabled then 3 else 3 / 2)⌋)
        l.length := by
  refine ⟨⟨(List.perm_insertionSort hqmGE l).symm,
      List.sorted_insertionSort hqmGE l⟩, ?_, ?_⟩
  · exact h.2.sublist (List.take_sublist _ _)
  · have hlen : out.length = l.length := h.1.length_eq.symm
    simp only [List.length_take, candidatesCount, hlen]
    omega

/-- Witness for C3 at a concrete two-row survivor list. -/
theorem C3_candidate_selector_witness :
    IsHqmDescSortOf [tieRow "P", tieRow "Q"] [tieRow "P", tieRow "Q"] ∧
    IsHqmDescSortOf [tieRow "P", tieRow "Q"]
      (sortByHqmDesc [tieRow "P", tieRow "Q"]) :=
  ⟨⟨List.Perm.refl _, by simp [hqmGE, hqmKey, tieRow]⟩,
   (C3_candidate_selector [tieRow "P", tieRow "Q"] [tieRow "P", tieRow "Q"]
      2 false ⟨List.Perm.refl _, by simp [hqmGE, hqmKey, tieRow]⟩).1⟩

/-- C3 counterexample: with two distinct tied candidates in original and
alphabetical order `[A, B]`, the reversed output `[B, A]` also satisfies
everything the source's sort guarantees, so the claimed deterministic
stable tie-break (original order, or alphabetical — both demand `[A, B]`)
is not a property of the code's sort. -/
theorem C3_counterexample :
    IsHqmDescSortOf [tieRow "AAA", tieRow "BBB"]
      [tieRow "BBB", tieRow "AAA"] ∧
    (tieRow "AAA").hqm_score = (tieRow "BBB").hqm_score ∧
    tieRow "AAA" ≠ tieRow "BBB" ∧
    [tieRow "BBB", tieRow "AAA"] ≠ [tieRow "AAA", tieRow "BBB"] := by
  refine ⟨⟨List.Perm.swap _ _ _, ?_⟩, rfl, ?_, ?_⟩
  · simp [hqmGE, hqmKey, tieRow]
  · intro hcontra
    have : (tieRow "AAA").row.ticker = (tieRow "BBB").row.ticker := by
      rw [hcontra]
    simp [tieRow, snapshotOf] at this
  · intro hcontra
    have := List.head_eq_of_cons_eq hcontra
    have h2 : (tieRow "BBB").row.ticker = (tieRow "AAA").row.ticker := by
      rw [this]
    simp [tieRow, snapshotOf] at h2

/-- C6: given that data exists, a request whose `num_positions` lies outside
`[1, 50]` or whose `portfolio_size` is below 1000 is answered with a
validation error without the scan being started; a request inside the
bounds passes validation and starts the scan. -/
theorem C6_parameter_validation (df : List StockRow) (portfolio_size : ℚ)
    (num_positions : ℤ) (maxd : Option ℚ) (sma : String → Option ℚ)
    (hdata : df ≠ []) :
    ((num_positions < 1 ∨ 50 < num_positions ∨ portfolio_size < 1000) →
      ∃ msg, start_scan df portfolio_size num_positions maxd sma =
        ApiResponse.validationError msg) ∧
    (1 ≤ num_positions → num_positions ≤ 50 → 1000 ≤ portfolio_size →
      start_scan df portfolio_size num_positions maxd sma =
        ApiResponse.scanStarted (run_hqm_scan_from_db df portfolio_size
          num_positions.toNat maxd sma)) := by
  have hlen : ¬ df.length = 0 := by
    simpa [List.length_eq_zero] using hdata
  constructor
  · intro h
    unfold start_scan
    rw [if_neg hlen]
    by_cases hp : portfolio_size < 1000
    · exact ⟨_, by rw [if_pos hp]⟩
    · have hnp : num_positions < 1 ∨ 50 < num_positions := by tauto
      exact ⟨_, by rw [if_neg hp, if_pos hnp]⟩
  · intro h1 h2 h3
    unfold start_scan
    rw [if_neg hlen, if_neg (not_lt.mpr h3), if_neg (by push_neg; omega)]

/-- Witness for C6: an out-of-range request and an in-range request against
the five-ticker example data. -/
theorem C6_parameter_validation_witness :
    exampleDf ≠ [] ∧ ((0:ℤ) < 1 ∨ (50:ℤ) < 0 ∨ (10000:ℚ) < 1000) ∧
    (∃ msg, start_scan exampleDf 10000 0 none (fun _ => none) =
      ApiResponse.validationError msg) ∧
    start_scan exampleDf 10000 8 none (fun _ => none) =
      ApiResponse.scanStarted (run_hqm_scan_from_db exampleDf 10000
        (8:ℤ).toNat none (fun _ => none)) :=
  ⟨by simp [exampleDf], Or.inl (by norm_num),
   (C6_parameter_validation exampleDf 10000 0 none (fun _ => none)
      (by simp [exampleDf])).1 (Or.inl (by norm_num)),
   (C6_parameter_validation exampleDf 10000 8 none (fun _ => none)
      (by simp [exampleDf])).2 (by norm_num) (by norm_num) (by norm_num)⟩

/-- Equation unfolding `run_hqm_scan_from_db` into its three outcomes, with the final
selection named. -/
theorem run_hqm_scan_from_db_cases (df : List StockRow) (P : ℚ) (n : ℕ)
    (maxd : Option ℚ) (sma : String → Option ℚ) :
    run_hqm_scan_from_db df P n maxd sma =
      if df.length = 0 then
        ScanOutcome.errorDict "No data in database. Please refresh data first."
      else if (finalSelection df n maxd sma).length = 0 then
        ScanOutcome.zeroDivisionError
      else
        ScanOutcome.ok
          ((sizePositions P (finalSelection df n maxd sma)).map toResultRow)
          { after_quality_filter :=
              (qualityFilter 25 (calculateScores df)).length,
            filtered_out :=
              df.length - (qualityFilter 25 (calculateScores df)).length,
            filtered_by_sma10 :=
              (addSmaDistance sma
                ((sortByHqmDesc (qualityFilter 25 (calculateScores df))).take
                  (candidatesCount n maxd.isSome (sortByHqmDesc
                    (qualityFilter 25 (calculateScores df))).length))).length -
              (applySmaFilter maxd (addSmaDistance sma
                ((sortByHqmDesc (qualityFilter 25 (calculateScores df))).take
                  (candidatesCount n maxd.isSome (sortByHqmDesc
                    (qualityFilter 25
                      (calculateScores df))).length)))).length,
            selected := (finalSelection df n maxd sma).length,
            total_invested := roundTo 2
              ((sizePositions P (finalSelection df n maxd sma)).map
                PositionRow.value).sum,
            cash_remaining := roundTo 2
              (P - ((sizePositions P (finalSelection df n maxd sma)).map
                PositionRow.value).sum),
            portfolio_size := P,
            allocation_per_stock := roundTo 2
              (P / ((finalSelection df n maxd sma).length : ℚ)) } := rfl

/-- C2 (amended): the scan returns the structured error dict exactly when
the snapshot collection is empty; it raises the (untyped) division-by-zero
error exactly when data exists but the final selection is empty — which
covers both "zero quality-filter survivors" and "empty selection after the
trend filter"; otherwise it returns a result. -/
theorem C2_scan_failure_modes (df : List StockRow) (portfolio_size : ℚ)
    (num_positions : ℕ) (maxd : Option ℚ) (sma : String → Option ℚ) :
    (run_hqm_scan_from_db df portfolio_size num_positions maxd sma =
        ScanOutcome.errorDict
          "No data in database. Please refresh data first." ↔ df = []) ∧
    (run_hqm_scan_from_db df portfolio_size num_positions maxd sma =
        ScanOutcome.zeroDivisionError ↔
      df ≠ [] ∧ finalSelection df num_positions maxd sma = []) ∧
    (df ≠ [] → finalSelection df num_positions maxd sma ≠ [] →
      ∃ res summary,
        run_hqm_scan_from_db df portfolio_size num_positions maxd sma =
          ScanOutcome.ok res summary) := by
  rw [run_hqm_scan_from_db_cases]
  by_cases hdf : df.length = 0
  · have hdf' : df = [] := List.length_eq_zero.mp hdf
    simp [hdf, hdf']
  · have hdf' : df ≠ [] := fun h => hdf (by simp [h])
    by_cases hsel :
        (finalSelection df num_positions maxd sma).length = 0
    · simp [hdf, hdf', hsel, List.length_eq_zero.mp hsel]
    · have hselne : finalSelection df num_positions maxd sma ≠ [] := by
        intro h
        rw [h] at hsel
        exact hsel rfl
      simp [hdf, hdf', hsel, hselne]

/-- Witness for C2's success case at a one-row collection. -/
theorem C2_scan_failure_modes_witness :
    ([snapshotOf "D" (2/100)] ≠ []) ∧
    finalSelection [snapshotOf "D" (2/100)] 4 none (fun _ => none) ≠ [] ∧
    ∃ res summary,
      run_hqm_scan_from_db [snapshotOf "D" (2/100)] 10000 4 none
        (fun _ => none) = ScanOutcome.ok res summary := by
  have hfs : finalSelection [snapshotOf "D" (2/100)] 4 none
      (fun _ => none) ≠ [] := by
    norm_num [finalSelection, qualityFilter, calculateScores, scoreRow,
      pctColumn, percentileofscore, List.countP_cons, List.filterMap_cons,
      decide_eq_true_eq, qualityKeep, minSkipNa, meanSkipNa, List.filter,
      sortByHqmDesc, candidatesCount, applySmaFilter, addSmaDistance,
      snapshotOf, List.insertionSort]
  exact ⟨by simp,
    hfs,
    (C2_scan_failure_modes [snapshotOf "D" (2/100)] 10000 4 none
      (fun _ => none)).2.2 (by simp) hfs⟩

/-- C2 counterexample: on a concrete three-snapshot collection the quality
filter removes every row and the scan ends in the untyped
division-by-zero error, not a typed insufficient-data error. -/
theorem C2_counterexample :
    zeroSurvivorDf ≠ [] ∧
    run_hqm_scan_from_db zeroSurvivorDf 10000 4 none (fun _ => none) =
      ScanOutcome.zeroDivisionError := by
  constructor
  · simp [zeroSurvivorDf]
  · have h : qualityFilter 25 (calculateScores zeroSurvivorDf) = [] := by
      norm_num [zeroSurvivorDf, snapshotOf4, qualityFilter, calculateScores,
        scoreRow, pctColumn, percentileofscore, List.countP_cons,
        List.filterMap_cons, decide_eq_true_eq, qualityKeep, minSkipNa,
        meanSkipNa, List.filter]
    simp only [zeroSurvivorDf] at h
    simp [run_hqm_scan_from_db, h, sortByHqmDesc, candidatesCount,
      applySmaFilter, addSmaDistance, zeroSurvivorDf, List.insertionSort]

/-- A value rounded to `d` decimal places is an integer over `10 ^ d`. -/
theorem roundTo_den (d : ℕ) (x : ℚ) :
    ∃ k : ℤ, roundTo d x = (k : ℚ) / 10 ^ d :=
  ⟨roundHalfEven (x * 10 ^ d), rfl⟩

/-- C9 (amended): in the database-backed scan every result field is rounded
as specified — returns to 4 decimal places, percentiles and the composite
score to 1, value to 2, weight to 1, and the summary totals to 2 — each
rounded field being an integer number of the corresponding decimal unit;
the standalone pipeline's output preparation instead rounds returns to
2 decimal places and passes value and weight through unrounded. -/
theorem C9_result_rounding (p : PositionRow) :
    (toResultRow p).return_1m = p.scored.row.return_1m.map (roundTo 4) ∧
    (toResultRow p).return_3m = p.scored.row.return_3m.map (roundTo 4) ∧
    (toResultRow p).return_6m = p.scored.row.return_6m.map (roundTo 4) ∧
    (toResultRow p).return_1y = p.scored.row.return_1y.map (roundTo 4) ∧
    (toResultRow p).pct_1m = p.scored.pct_1m.map (roundTo 1) ∧
    (toResultRow p).pct_3m = p.scored.pct_3m.map (roundTo 1) ∧
    (toResultRow p).pct_6m = p.scored.pct_6m.map (roundTo 1) ∧
    (toResultRow p).pct_1y = p.scored.pct_1y.map (roundTo 1) ∧
    (toResultRow p).hqm_score = p.scored.hqm_score.map (roundTo 1) ∧
    (toResultRow p).value = roundTo 2 p.value ∧
    (toResultRow p).weight = roundTo 1 p.weight ∧
    (∀ x : ℚ, (toResultRow p).return_1m = some x →
      ∃ k : ℤ, x = (k : ℚ) / 10 ^ 4) ∧
    (∀ x : ℚ, (toResultRow p).hqm_score = some x →
      ∃ k : ℤ, x = (k : ℚ) / 10 ^ 1) ∧
    (∃ k : ℤ, (toResultRow p).value = (k : ℚ) / 10 ^ 2) ∧
    (∃ k : ℤ, (toResultRow p).weight = (k : ℚ) / 10 ^ 1) ∧
    (∀ (df : List StockRow) (P : ℚ) (n : ℕ) (maxd : Option ℚ)
        (sma : String → Option ℚ) (res : List ResultRow) (s : ScanSummary),
      run_hqm_scan_from_db df P n maxd sma = ScanOutcome.ok res s →
      (∃ k : ℤ, s.total_invested = (k : ℚ) / 10 ^ 2) ∧
      (∃ k : ℤ, s.cash_remaining = (k : ℚ) / 10 ^ 2)) ∧
    (∀ q : PositionRow,
      (prepare_output_dataframe q).return_1m =
        q.scored.row.return_1m.map (roundTo 2) ∧
      (prepare_output_dataframe q).value = q.value ∧
      (prepare_output_dataframe q).weight = q.weight) := by
  refine ⟨rfl, rfl, rfl, rfl, rfl, rfl, rfl, rfl, rfl, rfl, rfl,
    ?_, ?_, ?_, ?_, ?_, fun q => ⟨rfl, rfl, rfl⟩⟩
  · intro x hx
    rcases hr : p.scored.row.return_1m with _ | y
    · rw [show (toResultRow p).return_1m =
          p.scored.row.return_1m.map (roundTo 4) from rfl, hr] at hx
      simp at hx
    · rw [show (toResultRow p).return_1m =
          p.scored.row.return_1m.map (roundTo 4) from rfl, hr] at hx
      rw [Option.map_some'] at hx
      obtain ⟨k, hk⟩ := roundTo_den 4 y
      exact ⟨k, (Option.some_inj.mp hx) ▸ hk⟩
  · intro x hx
    rcases hr : p.scored.hqm_score with _ | y
    · rw [show (toResultRow p).hqm_score =
          p.scored.hqm_score.map (roundTo 1) from rfl, hr] at hx
      simp at hx
    · rw [show (toResultRow p).hqm_score =
          p.scored.hqm_score.map (roundTo 1) from rfl, hr] at hx
      rw [Option.map_some'] at hx
      obtain ⟨k, hk⟩ := roundTo_den 1 y
      exact ⟨k, (Option.some_inj.mp hx) ▸ hk⟩
  · exact roundTo_den 2 p.value
  · exact roundTo_den 1 p.weight
  · intro df P n maxd sma res s hrun
    rw [run_hqm_scan_from_db_cases] at hrun
    split_ifs at hrun
    rw [ScanOutcome.ok.injEq] at hrun
    obtain ⟨-, hs⟩ := hrun
    subst hs
    exact ⟨roundTo_den 2 _, roundTo_den 2 _⟩

/-- Witness for C9 at the concrete sample position. -/
theorem C9_result_rounding_witness :
    (toResultRow samplePosition).return_1m = some (625/10000) ∧
    (∃ k : ℤ, (625/10000 : ℚ) = (k : ℚ) / 10 ^ 4) := by
  have h1 : (toResultRow samplePosition).return_1m = some (625/10000) := by
    norm_num [toResultRow, samplePosition, snapshotOf, roundTo, roundHalfEven]
  exact ⟨h1, (C9_result_rounding samplePosition).2.2.2.2.2.2.2.2.2.2.2.1
    (625/10000) h1⟩

/-- C9 counterexample: the standalone pipeline's output rounds the raw
one-month return 0.0625 to 0.06 (2 decimal places), which differs from the
4-decimal rounding 0.0625 the claim requires of every produced result. -/
theorem C9_counterexample :
    samplePosition.scored.row.return_1m = some (1/16) ∧
    (prepare_output_dataframe samplePosition).return_1m = some (6/100) ∧
    roundTo 4 (1/16) = 625/10000 ∧
    (6/100 : ℚ) ≠ 625/10000 := by
  refine ⟨rfl, ?_, ?_, by norm_num⟩
  · norm_num [prepare_output_dataframe, samplePosition, snapshotOf,
      roundTo, roundHalfEven]
  · norm_num [roundTo, roundHalfEven]

/-- A non-empty list of at most 50 elements forms a single batch. -/
theorem chunksOf_eq_single {α : Type} (l : List α) (h0 : l ≠ [])
    (h50 : l.length ≤ 50) : chunksOf 50 l = [l] := by
  cases l with
  | nil => exact absurd rfl h0
  | cons x xs =>
    rw [chunksOf]
    have hlen : xs.length ≤ 49 := by simp at h50; omega
    rw [List.take_of_length_le hlen, List.drop_eq_nil_of_le (by omega),
      chunksOf]

/-- With at most 50 tickers there is exactly one batch. -/
theorem get_sma10_single_chunk (tickers : List String)
    (hist : String → Option (List (Option ℚ))) (h0 : tickers ≠ [])
    (h50 : tickers.length ≤ 50) :
    get_sma10_distance tickers hist = processBatch hist tickers := by
  rw [get_sma10_distance, chunksOf_eq_single tickers h0 h50]
  simp

/-- A batch of two or more tickers takes the MultiIndex branch. -/
theorem processBatch_multi (hist : String → Option (List (Option ℚ)))
    (batch : List String) (h2 : 2 ≤ batch.length) :
    processBatch hist batch = batch.filterMap fun t =>
      ((hist t).bind multiTickerDistance).map fun d => (t, d) := by
  match batch with
  | [] => simp at h2
  | [t] => simp at h2
  | a :: b :: rest =>
    have hdef : processBatch hist (a :: b :: rest) =
        (a :: b :: rest).filterMap fun t =>
          match hist t with
          | some rows => (multiTickerDistance rows).map fun d => (t, d)
          | none => none := rfl
    rw [hdef]
    refine List.filterMap_congr fun u _ => ?_
    cases hist u <;> rfl

/-- Looking up a ticker absent from a keyed `filterMap` finds nothing. -/
theorem lookup_keyed_none (g : String → Option ℚ) (l : List String)
    (t : String) (ht : t ∉ l) :
    (l.filterMap fun u => (g u).map fun d => (u, d)).lookup t = none := by
  induction l with
  | nil => rfl
  | cons a l ih =>
    have hta : ¬ t = a := fun h => ht (by simp [h])
    have htl : t ∉ l := fun h => ht (by simp [h])
    rw [List.filterMap_cons]
    cases hga : g a with
    | none => exact ih htl
    | some d =>
      simp only [Option.map_some']
      rw [List.lookup_cons]
      simp [beq_false_of_ne hta, ih htl]

/-- Looking up a ticker of a duplicate-free list in the keyed `filterMap`
returns that ticker's value. -/
theorem lookup_keyed_mem (g : String → Option ℚ) (l : List String)
    (t : String) (hnd : l.Nodup) (ht : t ∈ l) :
    (l.filterMap fun u => (g u).map fun d => (u, d)).lookup t = g t := by
  induction l with
  | nil => simp at ht
  | cons a l ih =>
    rw [List.filterMap_cons]
    rcases List.mem_cons.mp ht with hta | htl
    · subst hta
      have htl : t ∉ l := (List.nodup_cons.mp hnd).1
      cases hga : g t with
      | none => exact lookup_keyed_none g l t htl
      | some d =>
        simp only [Option.map_some']
        rw [List.lookup_cons]
        simp
    · have hta : ¬ t = a := by
        intro h
        subst h
        exact (List.nodup_cons.mp hnd).1 htl
      have ihl := ih (List.nodup_cons.mp hnd).2 htl
      cases hga : g a with
      | none => exact ihl
      | some d =>
        simp only [Option.map_some']
        rw [List.lookup_cons]
        simp [beq_false_of_ne hta, ihl]

/-- Characterisation of the multi-ticker branch. -/
theorem multiTickerDistance_eq_some_iff (rows : List (Option ℚ)) (v : ℚ) :
    multiTickerDistance rows = some v ↔
      10 ≤ (validCloses rows).length ∧ 0 < sma10Of (validCloses rows) ∧
      ∃ current, (validCloses rows).getLast? = some current ∧
        v = roundTo 2 ((current - sma10Of (validCloses rows)) /
          sma10Of (validCloses rows) * 100) := by
  simp only [multiTickerDistance]
  by_cases h10 : 10 ≤ (validCloses rows).length
  · simp only [h10, if_true, true_and]
    cases hlast : (validCloses rows).getLast? with
    | none =>
      rw [List.getLast?_eq_none_iff] at hlast
      rw [hlast] at h10
      simp at h10
    | some c =>
      by_cases hpos : 0 < sma10Of (validCloses rows)
      · simp [hlast, hpos, eq_comm]
      · simp [hlast, hpos]
  · simp [h10]

/-- Characterisation of the single-ticker branch. -/
theorem singleTickerDistance_eq_some_iff (rows : List (Option ℚ)) (v : ℚ) :
    singleTickerDistance rows = some v ↔
      10 ≤ rows.length ∧ ∃ s, rolling10MeanLast rows = some s ∧ 0 < s ∧
        ∃ c, rows.getLast? = some (some c) ∧
          v = roundTo 2 ((c - s) / s * 100) := by
  simp only [singleTickerDistance]
  by_cases h10 : 10 ≤ rows.length
  · simp only [h10, if_true, true_and]
    cases hroll : rolling10MeanLast rows with
    | none => simp
    | some s =>
      cases hlast : rows.getLast? with
      | none => simp
      | some oc =>
        cases oc with
        | none => simp
        | some c =>
          by_cases hpos : 0 < s
          · simp [hpos, eq_comm]
          · simp [hpos]
  · simp [h10]

/-- C10 (amended): the multi-ticker branch includes a ticker iff it has at
least 10 valid closes and a strictly positive SMA over the last 10 valid
closes, its value being the rounded relative distance from the latest valid
close; a non-positive SMA10 yields no entry; for a duplicate-free ticker
list of 2 to 50 tickers the returned mapping is exactly that branch per
ticker, while a list of exactly one ticker goes through the single-ticker
branch, which does not drop NaN rows; every produced distance is a whole
number of hundredths, and a candidate with no distance entry survives the
trend filter. -/
theorem C10_sma10_distance :
    (∀ (rows : List (Option ℚ)) (v : ℚ),
      multiTickerDistance rows = some v ↔
        10 ≤ (validCloses rows).length ∧ 0 < sma10Of (validCloses rows) ∧
        ∃ current, (validCloses rows).getLast? = some current ∧
          v = roundTo 2 ((current - sma10Of (validCloses rows)) /
            sma10Of (validCloses rows) * 100)) ∧
    (∀ rows : List (Option ℚ), 10 ≤ (validCloses rows).length →
      sma10Of (validCloses rows) ≤ 0 → multiTickerDistance rows = none) ∧
    (∀ (tickers : List String) (hist : String → Option (List (Option ℚ)))
        (t : String), 2 ≤ tickers.length → tickers.length ≤ 50 →
      tickers.Nodup → t ∈ tickers →
      (get_sma10_distance tickers hist).lookup t =
        (hist t).bind multiTickerDistance) ∧
    (∀ (t : String) (hist : String → Option (List (Option ℚ))),
      (get_sma10_distance [t] hist).lookup t =
        (hist t).bind singleTickerDistance) ∧
    (∀ (rows : List (Option ℚ)) (v : ℚ), multiTickerDistance rows = some v →
      ∃ k : ℤ, v = (k : ℚ) / 10 ^ 2) ∧
    (∀ (rows : List (Option ℚ)) (v : ℚ),
      singleTickerDistance rows = some v → ∃ k : ℤ, v = (k : ℚ) / 10 ^ 2) ∧
    (∀ (maxd : ℚ) (pool : List (ScoredRow × Option ℚ))
        (p : ScoredRow × Option ℚ), p ∈ pool → p.2 = none →
      p ∈ applySmaFilter (some maxd) pool) := by
  refine ⟨multiTickerDistance_eq_some_iff, ?_, ?_, ?_, ?_, ?_, ?_⟩
  · intro rows h10 hle
    cases hv : multiTickerDistance rows with
    | none => rfl
    | some v =>
      rcases (multiTickerDistance_eq_some_iff rows v).mp hv with ⟨-, hpos, -⟩
      exact absurd hpos (not_lt.mpr hle)
  · intro tickers hist t h2 h50 hnd ht
    rw [get_sma10_single_chunk _ _
        (fun h => by rw [h] at h2; simp at h2) h50,
      processBatch_multi hist tickers h2]
    exact lookup_keyed_mem (fun u => (hist u).bind multiTickerDistance)
      tickers t hnd ht
  · intro t hist
    rw [get_sma10_single_chunk _ _ (by simp) (by simp)]
    cases hrows : hist t with
    | none => simp [processBatch, hrows]
    | some rows =>
      cases hd : singleTickerDistance rows with
      | none => simp [processBatch, hrows, hd]
      | some d => simp [processBatch, hrows, hd, List.lookup]
  · intro rows v hv
    rcases (multiTickerDistance_eq_some_iff rows v).mp hv with ⟨-, -, c, -, hval⟩
    rw [hval]
    exact roundTo_den 2 _
  · intro rows v hv
    rcases (singleTickerDistance_eq_some_iff rows v).mp hv with
      ⟨-, s, -, -, c, -, hval⟩
    rw [hval]
    exact roundTo_den 2 _
  · intro maxd pool p hp hnone
    simp [applySmaFilter, List.mem_filter, hp, smaKeep, hnone]

/-- Witness for C10 at a concrete two-ticker request with ten valid
closes. -/
theorem C10_sma10_distance_witness :
    (2 ≤ (["A", "B"] : List String).length) ∧
    ((["A", "B"] : List String).length ≤ 50) ∧
    (["A", "B"] : List String).Nodup ∧ "A" ∈ (["A", "B"] : List String) ∧
    (get_sma10_distance ["A", "B"]
        (fun _ => some (List.replicate 10 (some (2:ℚ))))).lookup "A" =
      ((fun _ => some (List.replicate 10 (some (2:ℚ)))) "A").bind
        multiTickerDistance :=
  ⟨by norm_num, by norm_num, by simp, by simp,
   C10_sma10_distance.2.2.1 ["A", "B"]
     (fun _ => some (List.replicate 10 (some (2:ℚ)))) "A"
     (by norm_num) (by norm_num) (by simp) (by simp)⟩

/-- C10 counterexample: in a single-ticker request, ticker "A" has 11 valid
closes and a positive SMA over the last 10 valid closes — the claim's
inclusion condition holds and the claimed value would be 81.82 — yet the
returned mapping omits the ticker, because the single-ticker branch does
not drop the NaN sitting among the last 10 raw rows. -/
theorem C10_counterexample :
    10 ≤ (validCloses exRowsA).length ∧
    0 < sma10Of (validCloses exRowsA) ∧
    multiTickerDistance exRowsA = some (4091/50) ∧
    (get_sma10_distance ["A"] (fun _ => some exRowsA)).lookup "A" = none := by
  refine ⟨by norm_num [validCloses, exRowsA, List.filterMap_cons], ?_, ?_, ?_⟩
  · norm_num [sma10Of, validCloses, exRowsA, List.filterMap_cons]
  · norm_num [multiTickerDistance, validCloses, sma10Of, exRowsA, roundTo,
      roundHalfEven, List.filterMap_cons, List.getLast?]
  · rw [get_sma10_single_chunk _ _ (by simp) (by simp)]
    have h : singleTickerDistance exRowsA = none := by
      norm_num [singleTickerDistance, rolling10MeanLast, exRowsA]
    simp [processBatch, h]
end HQM
